import Mathlib

/-!
Shallow embedding of the moderation-risk estimation engine of the
grok-generator repository, and proofs about it.

Sources embedded:
- `src/lib/promptAnalysis.ts` — `calculateSimilarity`, `findSimilarPrompts`,
  `findRiskyWords`, `generateSuggestions`, `assessModerationRisk`,
  `assessModerationRiskWithGrok`;
- `src/lib/grokTextModeration.ts` — `checkTextModeration` (the external
  network call and JSON parse are modelled as an explicit outcome parameter;
  the validation and fallback logic is embedded from the source);
- `src/lib/pricing.ts` — `PRICING.moderationFee`;
- `src/lib/moderationTracking.ts` — the `ModerationEvent` record shape.

JavaScript numbers are modelled as exact rationals (`ℚ`); strings as Lean
`String` (the prompts involved are ASCII, where `toLowerCase`/`split(/\s+/)`
agree with `String.toLower`/`String.split Char.isWhitespace` followed by the
length filter, which in particular discards the empty fragments produced by
runs of whitespace). `Array.prototype.sort` with a consistent comparator is
specified to be a stable sort, and a stable sort of a list with respect to a
total preorder is unique, so it is modelled by `List.insertionSort` (also
stable). `Promise` rejection of the external call is modelled by an
`Except`/outcome parameter.
-/

/-- The `'image' | 'video'` union type tagging each history event. -/
inductive MediaType where
  | image
  | video
deriving DecidableEq, Repr

/-- Structure `ModerationEvent` from `moderationTracking.ts` (the `metadata` record,
which the risk engine never reads, is omitted). -/
structure ModerationEvent where
  id : String
  timestamp : Nat
  type : MediaType
  prompt : String
  inputImageHash : String
  moderated : Bool
  cost : ℚ
  errorMessage : Option String := none
  model : Option String := none
deriving DecidableEq, Repr

/-- Structure `SimilarPrompt` from `promptAnalysis.ts`. -/
structure SimilarPrompt where
  event : ModerationEvent
  similarity : ℚ
deriving DecidableEq, Repr

/-- Structure `TextModerationResult` from `grokTextModeration.ts`. -/
structure TextModerationResult where
  safe : Bool
  confidence : ℚ
  issues : List String
  suggestions : List String
  reasoning : String
deriving DecidableEq, Repr

/-- Structure `RiskAssessment` from `promptAnalysis.ts`. -/
structure RiskAssessment where
  riskScore : ℚ
  confidence : ℚ
  similarModerated : List SimilarPrompt
  similarSuccessful : List SimilarPrompt
  riskyWords : List String
  suggestions : List String
  estimatedWaste : ℚ
  grokAnalysis : Option TextModerationResult := none
deriving DecidableEq, Repr

/-- Constant `PRICING.moderationFee` from `pricing.ts`. -/
def PRICING.moderationFee : ℚ := 0.05

/-- JavaScript `s.toLowerCase()`, applied character-wise (the prompts in
play are ASCII, where the two agree). -/
def toLowerCase (s : String) : String :=
  List.asString (s.data.map Char.toLower)

/-- Tokenization `str.toLowerCase().split(/\s+/).filter(w => w.length > 2)` — the
tokenization used throughout `promptAnalysis.ts`.  The split is modelled on
each whitespace character; `/\s+/` splits on whitespace runs instead, but
the extra empty fragments produced by splitting character-wise (including
the leading empty fragment JS produces for leading whitespace) all have
length `0 ≤ 2`, so after the length filter the two agree: the tokens are
the maximal non-whitespace runs of length `> 2`. -/
def tokenize (str : String) : List String :=
  (((toLowerCase str).data.splitOnP Char.isWhitespace).map
    List.asString).filter (fun w => w.length > 2)

/-- Helper for `dedupKeepFirst`: keeps the elements not yet `seen`, in
order, recording each kept element. -/
def dedupKeepFirstAux (seen : List String) : List String → List String
  | [] => []
  | a :: l =>
    if a ∈ seen then dedupKeepFirstAux seen l
    else a :: dedupKeepFirstAux (a :: seen) l

/-- First-occurrence-order deduplication, the behaviour of JavaScript
`new Set(list)` / `Array.from(new Set(list))`. -/
def dedupKeepFirst (l : List String) : List String :=
  dedupKeepFirstAux [] l

/-- Function `calculateSimilarity` from `promptAnalysis.ts` (word-overlap Jaccard
similarity).  JS `Set` sizes and membership are order-independent, so the
sets are modelled with `List.dedup`. -/
def calculateSimilarity (str1 str2 : String) : ℚ :=
  let words1 := tokenize str1
  let words2 := tokenize str2
  if words1.length = 0 ∨ words2.length = 0 then 0
  else
    let set1 := words1.dedup
    let set2 := words2.dedup
    let overlap := (set1.filter (fun word => set2.contains word)).length
    let union := (set1 ++ set2).dedup.length
    (overlap : ℚ) / (union : ℚ)

/-- The record returned by `findSimilarPrompts`. -/
structure SimilarSets where
  moderated : List SimilarPrompt
  successful : List SimilarPrompt
deriving DecidableEq, Repr

/-- Function `findSimilarPrompts` from `promptAnalysis.ts`.  The history store read
(`getModerationHistory()`) is passed explicitly.  The default threshold
`minSimilarity = 0.2` is passed explicitly at the call site. -/
def findSimilarPrompts (prompt : String) (type : MediaType)
    (history : List ModerationEvent) (minSimilarity : ℚ) : SimilarSets :=
  let typeHistory := history.filter (fun e => e.type = type)
  let similar : List SimilarPrompt :=
    typeHistory.filterMap (fun event =>
      let similarity := calculateSimilarity prompt event.prompt
      if similarity ≥ minSimilarity then some ⟨event, similarity⟩ else none)
  let sorted :=
    similar.insertionSort (fun a b => b.similarity ≤ a.similarity)
  { moderated := (sorted.filter (fun s => s.event.moderated)).take 5
    successful := (sorted.filter (fun s => !s.event.moderated)).take 5 }

/-- The total number of occurrences of `word` across the token lists of the
given events' prompts — the count stored in the `moderatedWords` /
`successfulWords` maps of `findRiskyWords`. -/
def wordCount (events : List ModerationEvent) (word : String) : Nat :=
  ((events.map (fun e => tokenize e.prompt)).flatten).count word

/-- The `(word, risk)` pairs pushed onto `riskyWords` inside
`findRiskyWords`: one iteration per occurrence of a token in the candidate
prompt. -/
def riskyCandidates (prompt : String) (moderatedPrompts successfulPrompts :
    List ModerationEvent) : List (String × ℚ) :=
  (tokenize prompt).filterMap (fun word =>
    let moderatedCount := wordCount moderatedPrompts word
    let successfulCount := wordCount successfulPrompts word
    let totalCount := moderatedCount + successfulCount
    if totalCount ≥ 2 ∧ moderatedCount > successfulCount then
      let risk : ℚ := (moderatedCount : ℚ) / (totalCount : ℚ)
      if risk > 0.6 then some (word, risk) else none
    else none)

/-- Function `findRiskyWords` from `promptAnalysis.ts`. -/
def findRiskyWords (prompt : String) (type : MediaType)
    (history : List ModerationEvent) : List String :=
  let typeHistory := history.filter (fun e => e.type = type)
  let moderatedPrompts := typeHistory.filter (fun e => e.moderated)
  let successfulPrompts := typeHistory.filter (fun e => !e.moderated)
  if moderatedPrompts.length = 0 then []
  else
    let riskyWords := riskyCandidates prompt moderatedPrompts successfulPrompts
    let sorted := riskyWords.insertionSort (fun a b => b.2 ≤ a.2)
    (sorted.take 5).map (fun w => w.1)

/-- The first fixed generic suggestion emitted by `generateSuggestions`. -/
def genericSuggestion1 : String := "Use more generic, descriptive terms"

/-- The second fixed generic suggestion emitted by `generateSuggestions`. -/
def genericSuggestion2 : String :=
  "Avoid specific descriptions of people or sensitive topics"

/-- Function `generateSuggestions` from `promptAnalysis.ts`. -/
def generateSuggestions (riskyWords : List String)
    (similarSuccessful : List SimilarPrompt) : List String :=
  let s1 : List String :=
    if riskyWords.length > 0 then
      ["Consider removing or replacing: " ++ String.intercalate ", " riskyWords]
    else []
  let s2 : List String :=
    match similarSuccessful with
    | [] => []
    | bestMatch :: _ =>
      ["Try phrasing similar to: \"" ++ bestMatch.event.prompt ++ "\""]
  (s1 ++ s2 ++ [genericSuggestion1, genericSuggestion2]).take 4

/-- The similarity-weighted sum `list.reduce((sum, s) => sum + s.similarity, 0)`
used by `assessModerationRisk`. -/
def similarityWeight (l : List SimilarPrompt) : ℚ :=
  l.foldl (fun sum s => sum + s.similarity) 0

/-- The value of the `riskScore` variable of `assessModerationRisk` after the
`totalSimilar > 0` / `totalWeight > 0` block and before the risky-word
boost. -/
def baseRiskScore (moderated successful : List SimilarPrompt) : ℚ :=
  let totalSimilar := moderated.length + successful.length
  let moderatedWeight := similarityWeight moderated
  let totalWeight := moderatedWeight + similarityWeight successful
  if totalSimilar > 0 ∧ totalWeight > 0 then moderatedWeight / totalWeight
  else 0

/-- The value of the `confidence` variable of `assessModerationRisk` after
the `totalSimilar > 0` / `totalWeight > 0` block and before the risky-word
boost. -/
def baseConfidence (moderated successful : List SimilarPrompt) : ℚ :=
  let totalSimilar := moderated.length + successful.length
  let moderatedWeight := similarityWeight moderated
  let totalWeight := moderatedWeight + similarityWeight successful
  if totalSimilar > 0 ∧ totalWeight > 0 then
    min ((totalSimilar : ℚ) / 10) 1
  else 0

/-- Function `assessModerationRisk` from `promptAnalysis.ts`.  The history store read
is passed explicitly; the two sequential mutations of `riskScore` and
`confidence` are rendered as `baseRiskScore`/`baseConfidence` followed by the
risky-word boost. -/
def assessModerationRisk (prompt : String) (type : MediaType) (cost : ℚ)
    (history : List ModerationEvent) : RiskAssessment :=
  let sets := findSimilarPrompts prompt type history 0.2
  let riskyWords := findRiskyWords prompt type history
  let riskScore0 := baseRiskScore sets.moderated sets.successful
  let confidence0 := baseConfidence sets.moderated sets.successful
  let riskScore :=
    if riskyWords.length > 0 then
      min (riskScore0 + (riskyWords.length : ℚ) * 0.1) 1
    else riskScore0
  let confidence :=
    if riskyWords.length > 0 then max confidence0 0.5 else confidence0
  let suggestions := generateSuggestions riskyWords sets.successful
  let estimatedWaste := riskScore * (cost + PRICING.moderationFee)
  { riskScore := riskScore
    confidence := confidence
    similarModerated := sets.moderated
    similarSuccessful := sets.successful
    riskyWords := riskyWords
    suggestions := suggestions
    estimatedWaste := estimatedWaste
    grokAnalysis := none }

/-- The JSON object produced by `JSON.parse` on the classifier's reply, as
seen by the validation block of `checkTextModeration`: each checked field is
`some v` when it has the required runtime type and `none` otherwise
(`undefined`, wrong type). -/
structure ParsedResponse where
  safe : Option Bool
  confidence : Option ℚ
  issues : Option (List String)
  suggestions : Option (List String)
  reasoning : String
deriving DecidableEq, Repr

/-- The behaviour of the external call + `JSON.parse` inside
`checkTextModeration`: either some step threw/rejected (network error,
missing API key, unparseable text) with an error message, or a JSON object
was obtained. -/
inductive GrokCallOutcome where
  | failure (msg : String)
  | response (r : ParsedResponse)
deriving DecidableEq, Repr

/-- The fallback result built in the `catch` of `checkTextModeration`. -/
def moderationFallback (msg : String) : TextModerationResult :=
  { safe := true
    confidence := 0
    issues := []
    suggestions := []
    reasoning := "Error analyzing prompt: " ++ msg }

/-- Function `checkTextModeration` from `grokTextModeration.ts`.  The prompt only
feeds the external call, which is modelled by the explicit `outcome`; the
validation of the parsed object and the catch-all fallback are embedded from
the source (an invalid shape throws `Invalid response format from Grok`,
which the `catch` turns into the fallback). -/
def checkTextModeration (_prompt : String) :
    GrokCallOutcome → TextModerationResult
  | .failure msg => moderationFallback msg
  | .response r =>
    match r.safe, r.confidence, r.issues, r.suggestions with
    | some safe, some confidence, some issues, some suggestions =>
      { safe := safe
        confidence := confidence
        issues := issues
        suggestions := suggestions
        reasoning := r.reasoning }
    | _, _, _, _ => moderationFallback "Invalid response format from Grok"

/-- Function `assessModerationRiskWithGrok` from `promptAnalysis.ts`.  The awaited
classifier call is modelled by `grokCall : Except String TextModerationResult`:
`.ok g` is the resolved verdict (the value returned by `checkTextModeration`),
`.error` a rejection, handled by the `catch` that returns the base
assessment. -/
def assessModerationRiskWithGrok (prompt : String) (type : MediaType)
    (cost : ℚ) (history : List ModerationEvent)
    (grokCall : Except String TextModerationResult) : RiskAssessment :=
  let baseAssessment := assessModerationRisk prompt type cost history
  match grokCall with
  | .error _ => baseAssessment
  | .ok grokAnalysis =>
    let combinedRiskScore :=
      if grokAnalysis.confidence > 0 then
        if !grokAnalysis.safe then
          grokAnalysis.confidence * 0.7 + baseAssessment.riskScore * 0.3
        else baseAssessment.riskScore * 0.5
      else baseAssessment.riskScore
    let combinedConfidence :=
      if grokAnalysis.confidence > 0 then
        if !grokAnalysis.safe then
          max grokAnalysis.confidence baseAssessment.confidence
        else max (grokAnalysis.confidence * 0.8) baseAssessment.confidence
      else baseAssessment.confidence
    let combinedSuggestions :=
      (baseAssessment.suggestions ++ grokAnalysis.suggestions).take 5
    let combinedRiskyWords :=
      baseAssessment.riskyWords ++ grokAnalysis.issues.map toLowerCase
    { baseAssessment with
      riskScore := combinedRiskScore
      confidence := combinedConfidence
      suggestions := combinedSuggestions
      riskyWords := dedupKeepFirst combinedRiskyWords
      estimatedWaste := combinedRiskScore * cost
      grokAnalysis := some grokAnalysis }

/-! ### Concrete fixtures used by witnesses and counterexamples -/

/-- A history event with the given prompt and moderation outcome (the other
fields are irrelevant to the risk engine's arithmetic). -/
def mkEvent (p : String) (m : Bool) : ModerationEvent :=
  { id := "e"
    timestamp := 0
    type := MediaType.image
    prompt := p
    inputImageHash := "h"
    moderated := m
    cost := 0 }

/-- The neutral classifier verdict (zero confidence). -/
def neutralVerdict : TextModerationResult :=
  { safe := true
    confidence := 0
    issues := []
    suggestions := []
    reasoning := "n" }

/-- A classifier verdict marking the prompt unsafe, with confidence `0.9`. -/
def flaggedVerdict : TextModerationResult :=
  { safe := false
    confidence := 0.9
    issues := []
    suggestions := []
    reasoning := "r" }

/-- A history giving the candidate `"aaa bbb ccc"` a base risk score of
exactly `0.2`: one moderated event of similarity `0.25` and one successful
event of similarity `1`. -/
def mixedHistory : List ModerationEvent :=
  [mkEvent "aaa xxx" true, mkEvent "aaa bbb ccc" false]

/-! ### Projection lemmas -/

theorem assessModerationRisk_riskScore (prompt : String) (type : MediaType)
    (cost : ℚ) (history : List ModerationEvent) :
    (assessModerationRisk prompt type cost history).riskScore =
      (if (findRiskyWords prompt type history).length > 0 then
        min (baseRiskScore (findSimilarPrompts prompt type history 0.2).moderated
              (findSimilarPrompts prompt type history 0.2).successful
            + ((findRiskyWords prompt type history).length : ℚ) * 0.1) 1
      else baseRiskScore (findSimilarPrompts prompt type history 0.2).moderated
        (findSimilarPrompts prompt type history 0.2).successful) := rfl

theorem assessModerationRisk_confidence (prompt : String) (type : MediaType)
    (cost : ℚ) (history : List ModerationEvent) :
    (assessModerationRisk prompt type cost history).confidence =
      (if (findRiskyWords prompt type history).length > 0 then
        max (baseConfidence (findSimilarPrompts prompt type history 0.2).moderated
          (findSimilarPrompts prompt type history 0.2).successful) 0.5
      else baseConfidence (findSimilarPrompts prompt type history 0.2).moderated
        (findSimilarPrompts prompt type history 0.2).successful) := rfl

theorem assessModerationRisk_estimatedWaste (prompt : String)
    (type : MediaType) (cost : ℚ) (history : List ModerationEvent) :
    (assessModerationRisk prompt type cost history).estimatedWaste =
      (assessModerationRisk prompt type cost history).riskScore *
        (cost + PRICING.moderationFee) := rfl

theorem assessModerationRisk_riskyWords (prompt : String) (type : MediaType)
    (cost : ℚ) (history : List ModerationEvent) :
    (assessModerationRisk prompt type cost history).riskyWords =
      findRiskyWords prompt type history := rfl

theorem assessModerationRisk_suggestions (prompt : String)
    (type : MediaType) (cost : ℚ) (history : List ModerationEvent) :
    (assessModerationRisk prompt type cost history).suggestions =
      generateSuggestions (findRiskyWords prompt type history)
        (findSimilarPrompts prompt type history 0.2).successful := rfl

theorem assessModerationRiskWithGrok_error (prompt : String)
    (type : MediaType) (cost : ℚ) (history : List ModerationEvent)
    (msg : String) :
    assessModerationRiskWithGrok prompt type cost history (.error msg) =
      assessModerationRisk prompt type cost history := rfl

theorem assessModerationRiskWithGrok_ok (prompt : String) (type : MediaType)
    (cost : ℚ) (history : List ModerationEvent) (g : TextModerationResult) :
    assessModerationRiskWithGrok prompt type cost history (.ok g) =
      (let baseAssessment := assessModerationRisk prompt type cost history
      let combinedRiskScore :=
        if g.confidence > 0 then
          if !g.safe then g.confidence * 0.7 + baseAssessment.riskScore * 0.3
          else baseAssessment.riskScore * 0.5
        else baseAssessment.riskScore
      { baseAssessment with
        riskScore := combinedRiskScore
        confidence :=
          if g.confidence > 0 then
            if !g.safe then max g.confidence baseAssessment.confidence
            else max (g.confidence * 0.8) baseAssessment.confidence
          else baseAssessment.confidence
        suggestions := (baseAssessment.suggestions ++ g.suggestions).take 5
        riskyWords := dedupKeepFirst
          (baseAssessment.riskyWords ++ g.issues.map toLowerCase)
        estimatedWaste := combinedRiskScore * cost
        grokAnalysis := some g }) := rfl

/-! ### Helper lemmas: first-occurrence dedup -/

theorem mem_of_mem_dedupKeepFirstAux {seen l : List String} {x : String}
    (h : x ∈ dedupKeepFirstAux seen l) : x ∈ l := by
  induction l generalizing seen with
  | nil => simp [dedupKeepFirstAux] at h
  | cons a t ih =>
    simp only [dedupKeepFirstAux] at h
    by_cases ha : a ∈ seen
    · rw [if_pos ha] at h
      exact List.mem_cons_of_mem _ (ih h)
    · rw [if_neg ha] at h
      rcases List.mem_cons.1 h with h | h
      · exact h ▸ List.mem_cons_self _ _
      · exact List.mem_cons_of_mem _ (ih h)

theorem not_seen_of_mem_dedupKeepFirstAux {seen l : List String} {x : String}
    (h : x ∈ dedupKeepFirstAux seen l) : x ∉ seen := by
  induction l generalizing seen with
  | nil => simp [dedupKeepFirstAux] at h
  | cons a t ih =>
    simp only [dedupKeepFirstAux] at h
    by_cases ha : a ∈ seen
    · rw [if_pos ha] at h
      exact ih h
    · rw [if_neg ha] at h
      rcases List.mem_cons.1 h with h | h
      · exact h ▸ ha
      · intro hx
        exact ih h (List.mem_cons_of_mem _ hx)

theorem nodup_dedupKeepFirstAux (seen l : List String) :
    (dedupKeepFirstAux seen l).Nodup := by
  induction l generalizing seen with
  | nil => simp [dedupKeepFirstAux]
  | cons a t ih =>
    simp only [dedupKeepFirstAux]
    by_cases ha : a ∈ seen
    · rw [if_pos ha]
      exact ih seen
    · rw [if_neg ha]
      refine List.nodup_cons.2 ⟨fun hmem => ?_, ih (a :: seen)⟩
      exact not_seen_of_mem_dedupKeepFirstAux hmem (List.mem_cons_self _ _)

theorem nodup_dedupKeepFirst (l : List String) : (dedupKeepFirst l).Nodup :=
  nodup_dedupKeepFirstAux [] l

/-! ### Helper lemmas: similarity weights -/

theorem similarityWeight_eq (l : List SimilarPrompt) :
    similarityWeight l = (l.map SimilarPrompt.similarity).sum := by
  have aux : ∀ (l : List SimilarPrompt) (c : ℚ),
      l.foldl (fun sum s => sum + s.similarity) c =
        c + (l.map SimilarPrompt.similarity).sum := by
    intro l
    induction l with
    | nil => intro c; simp
    | cons a t ih => intro c; simp [ih, add_assoc]
  simpa using aux l 0

theorem similarityWeight_nonneg {l : List SimilarPrompt}
    (h : ∀ s ∈ l, 0 ≤ s.similarity) : 0 ≤ similarityWeight l := by
  rw [similarityWeight_eq]
  refine List.sum_nonneg fun x hx => ?_
  obtain ⟨s, hs, rfl⟩ := List.mem_map.1 hx
  exact h s hs

theorem similarityWeight_pos {l : List SimilarPrompt} {c : ℚ} (hc : 0 < c)
    (hne : l ≠ []) (h : ∀ s ∈ l, c ≤ s.similarity) :
    0 < similarityWeight l := by
  rw [similarityWeight_eq]
  refine List.sum_pos _ (fun x hx => ?_) (by simpa using hne)
  obtain ⟨s, hs, rfl⟩ := List.mem_map.1 hx
  exact lt_of_lt_of_le hc (h s hs)

/-! ### Helper lemmas: findSimilarPrompts -/

/-- The sorted list of similar prompts built inside `findSimilarPrompts`. -/
def similarSorted (prompt : String) (type : MediaType)
    (history : List ModerationEvent) (minSimilarity : ℚ) :
    List SimilarPrompt :=
  ((history.filter (fun e => e.type = type)).filterMap (fun event =>
    let similarity := calculateSimilarity prompt event.prompt
    if similarity ≥ minSimilarity then some ⟨event, similarity⟩
    else none)).insertionSort (fun a b => b.similarity ≤ a.similarity)

theorem findSimilarPrompts_moderated (prompt : String) (type : MediaType)
    (history : List ModerationEvent) (minSimilarity : ℚ) :
    (findSimilarPrompts prompt type history minSimilarity).moderated =
      ((similarSorted prompt type history minSimilarity).filter
        (fun s => s.event.moderated)).take 5 := rfl

theorem findSimilarPrompts_successful (prompt : String) (type : MediaType)
    (history : List ModerationEvent) (minSimilarity : ℚ) :
    (findSimilarPrompts prompt type history minSimilarity).successful =
      ((similarSorted prompt type history minSimilarity).filter
        (fun s => !s.event.moderated)).take 5 := rfl

theorem similarity_ge_of_mem_similarSorted {prompt : String}
    {type : MediaType} {history : List ModerationEvent} {minSimilarity : ℚ}
    {s : SimilarPrompt}
    (hs : s ∈ similarSorted prompt type history minSimilarity) :
    minSimilarity ≤ s.similarity := by
  rw [similarSorted, List.mem_insertionSort] at hs
  obtain ⟨event, _, heq⟩ := List.mem_filterMap.1 hs
  by_cases hcond : calculateSimilarity prompt event.prompt ≥ minSimilarity
  · simp only [if_pos hcond, Option.some_inj] at heq
    rw [← heq]
    exact hcond
  · simp [if_neg hcond] at heq

theorem similarity_ge_of_mem_moderated {prompt : String} {type : MediaType}
    {history : List ModerationEvent} {minSimilarity : ℚ} {s : SimilarPrompt}
    (hs : s ∈ (findSimilarPrompts prompt type history minSimilarity).moderated) :
    minSimilarity ≤ s.similarity := by
  rw [findSimilarPrompts_moderated] at hs
  exact similarity_ge_of_mem_similarSorted
    ((List.mem_filter.1 (List.mem_of_mem_take hs)).1)

theorem similarity_ge_of_mem_successful {prompt : String} {type : MediaType}
    {history : List ModerationEvent} {minSimilarity : ℚ} {s : SimilarPrompt}
    (hs : s ∈ (findSimilarPrompts prompt type history minSimilarity).successful) :
    minSimilarity ≤ s.similarity := by
  rw [findSimilarPrompts_successful] at hs
  exact similarity_ge_of_mem_similarSorted
    ((List.mem_filter.1 (List.mem_of_mem_take hs)).1)

/-! ### Helper lemmas: calculateSimilarity as a Jaccard index of finsets -/

theorem dedup_toFinset (l : List String) : l.dedup.toFinset = l.toFinset := by
  ext x
  simp [List.mem_dedup]

theorem overlap_card (l1 l2 : List String) :
    ((l1.dedup.filter (fun word => l2.dedup.contains word)).length) =
      (l1.toFinset ∩ l2.toFinset).card := by
  have hnd : (l1.dedup.filter (fun word => l2.dedup.contains word)).Nodup :=
    (List.nodup_dedup l1).filter _
  rw [← List.Nodup.dedup hnd, ← List.card_toFinset, List.toFinset_filter,
    dedup_toFinset]
  rw [← Finset.filter_mem_eq_inter (t := l2.toFinset)]
  congr 1
  ext x
  simp [List.mem_dedup]

theorem union_card (l1 l2 : List String) :
    ((l1.dedup ++ l2.dedup).dedup.length) =
      (l1.toFinset ∪ l2.toFinset).card := by
  rw [← List.card_toFinset, List.toFinset_append, dedup_toFinset,
    dedup_toFinset]

theorem calculateSimilarity_eq_jaccard {a b : String} (ha : tokenize a ≠ [])
    (hb : tokenize b ≠ []) :
    calculateSimilarity a b =
      (((tokenize a).toFinset ∩ (tokenize b).toFinset).card : ℚ) /
        (((tokenize a).toFinset ∪ (tokenize b).toFinset).card : ℚ) := by
  rw [calculateSimilarity]
  simp only [List.length_eq_zero]
  rw [if_neg (by tauto)]
  rw [overlap_card, union_card]

theorem calculateSimilarity_empty {a b : String}
    (h : tokenize a = [] ∨ tokenize b = []) :
    calculateSimilarity a b = 0 := by
  rw [calculateSimilarity]
  simp only [List.length_eq_zero]
  rw [if_pos h]

theorem calculateSimilarity_nonneg (a b : String) :
    0 ≤ calculateSimilarity a b := by
  by_cases h : tokenize a = [] ∨ tokenize b = []
  · rw [calculateSimilarity_empty h]
  · push_neg at h
    rw [calculateSimilarity_eq_jaccard h.1 h.2]
    exact div_nonneg (Nat.cast_nonneg _) (Nat.cast_nonneg _)

theorem calculateSimilarity_le_one (a b : String) :
    calculateSimilarity a b ≤ 1 := by
  by_cases h : tokenize a = [] ∨ tokenize b = []
  · rw [calculateSimilarity_empty h]
    norm_num
  · push_neg at h
    rw [calculateSimilarity_eq_jaccard h.1 h.2]
    refine div_le_one_of_le₀ ?_ (Nat.cast_nonneg _)
    exact_mod_cast Finset.card_le_card
      (Finset.inter_subset_left.trans Finset.subset_union_left)

theorem calculateSimilarity_comm (a b : String) :
    calculateSimilarity a b = calculateSimilarity b a := by
  by_cases h : tokenize a = [] ∨ tokenize b = []
  · rw [calculateSimilarity_empty h, calculateSimilarity_empty h.symm]
  · push_neg at h
    rw [calculateSimilarity_eq_jaccard h.1 h.2,
      calculateSimilarity_eq_jaccard h.2 h.1, Finset.inter_comm,
      Finset.union_comm]

theorem calculateSimilarity_self {p : String} (hp : tokenize p ≠ []) :
    calculateSimilarity p p = 1 := by
  rw [calculateSimilarity_eq_jaccard hp hp, Finset.inter_self,
    Finset.union_self]
  have hcard : 0 < (tokenize p).toFinset.card :=
    Finset.card_pos.2 ((List.toFinset_nonempty_iff _).2 hp)
  rw [div_self]
  exact_mod_cast hcard.ne'

/-- C5: for all strings `a`, `b`, `calculateSimilarity a b` lies in `[0,1]`
and is symmetric; for every string `p` with at least one whitespace-delimited
token of length `> 2`, `calculateSimilarity p p = 1`; and whenever either
string's token set is empty the similarity is `0`. -/
theorem calculateSimilarity_spec (a b p : String) :
    0 ≤ calculateSimilarity a b ∧ calculateSimilarity a b ≤ 1 ∧
    calculateSimilarity a b = calculateSimilarity b a ∧
    (tokenize p ≠ [] → calculateSimilarity p p = 1) ∧
    ((tokenize a = [] ∨ tokenize b = []) → calculateSimilarity a b = 0) :=
  ⟨calculateSimilarity_nonneg a b, calculateSimilarity_le_one a b,
    calculateSimilarity_comm a b, fun hp => calculateSimilarity_self hp,
    fun h => calculateSimilarity_empty h⟩

/-- Witness for C5 at concrete strings: `"Foo foo bar"` is perfectly similar
to itself, and a tokenless string has similarity `0` to anything. -/
theorem calculateSimilarity_spec_witness :
    calculateSimilarity "Foo foo bar" "Foo foo bar" = 1 ∧
    calculateSimilarity "a b" "aaa" = 0 := by
  constructor
  · exact (calculateSimilarity_spec "x" "y" "Foo foo bar").2.2.2.1
      (by with_unfolding_all decide)
  · exact (calculateSimilarity_spec "a b" "aaa" "p").2.2.2.2
      (Or.inl (by with_unfolding_all decide))

/-! ### Helper lemmas: the base score of assessModerationRisk -/

theorem base_of_similar_pos (prompt : String) (type : MediaType)
    (history : List ModerationEvent)
    (h : 0 < (findSimilarPrompts prompt type history 0.2).moderated.length +
      (findSimilarPrompts prompt type history 0.2).successful.length) :
    baseRiskScore (findSimilarPrompts prompt type history 0.2).moderated
        (findSimilarPrompts prompt type history 0.2).successful =
      similarityWeight (findSimilarPrompts prompt type history 0.2).moderated /
        (similarityWeight (findSimilarPrompts prompt type history 0.2).moderated +
          similarityWeight (findSimilarPrompts prompt type history 0.2).successful) ∧
    baseConfidence (findSimilarPrompts prompt type history 0.2).moderated
        (findSimilarPrompts prompt type history 0.2).successful =
      min ((((findSimilarPrompts prompt type history 0.2).moderated.length +
        (findSimilarPrompts prompt type history 0.2).successful.length : ℕ) : ℚ) / 10) 1 := by
  set M := (findSimilarPrompts prompt type history 0.2).moderated with hM
  set S := (findSimilarPrompts prompt type history 0.2).successful with hS
  have hm : ∀ s ∈ M, (0.2 : ℚ) ≤ s.similarity := fun s hs =>
    similarity_ge_of_mem_moderated (hM ▸ hs)
  have hs : ∀ s ∈ S, (0.2 : ℚ) ≤ s.similarity := fun s hsm =>
    similarity_ge_of_mem_successful (hS ▸ hsm)
  have hmn : 0 ≤ similarityWeight M :=
    similarityWeight_nonneg fun s hsm => le_trans (by norm_num) (hm s hsm)
  have hsn : 0 ≤ similarityWeight S :=
    similarityWeight_nonneg fun s hsm => le_trans (by norm_num) (hs s hsm)
  have hw : 0 < similarityWeight M + similarityWeight S := by
    rcases eq_or_ne M [] with h1 | h1
    · have h2 : S ≠ [] := by
        intro h2
        rw [h1, h2] at h
        simp at h
      have := similarityWeight_pos (by norm_num : (0:ℚ) < 0.2) h2 hs
      linarith
    · have := similarityWeight_pos (by norm_num : (0:ℚ) < 0.2) h1 hm
      linarith
  constructor
  · simp only [baseRiskScore]
    split_ifs with hcond
    · rfl
    · exact absurd ⟨h, hw⟩ hcond
  · simp only [baseConfidence]
    split_ifs with hcond
    · rfl
    · exact absurd ⟨h, hw⟩ hcond

theorem base_of_similar_zero {M S : List SimilarPrompt}
    (h : M.length + S.length = 0) :
    baseRiskScore M S = 0 ∧ baseConfidence M S = 0 := by
  constructor <;> simp [baseRiskScore, baseConfidence, h]

theorem assessModerationRisk_nil (prompt : String) (type : MediaType)
    (cost : ℚ) :
    (assessModerationRisk prompt type cost []).riskScore = 0 ∧
    (assessModerationRisk prompt type cost []).confidence = 0 ∧
    (assessModerationRisk prompt type cost []).riskyWords = [] := by
  have hf : findSimilarPrompts prompt type [] 0.2 = ⟨[], []⟩ := rfl
  have hr : findRiskyWords prompt type [] = [] := rfl
  refine ⟨?_, ?_, ?_⟩ <;>
    simp [assessModerationRisk_riskScore, assessModerationRisk_confidence,
      assessModerationRisk_riskyWords, hf, hr, baseRiskScore, baseConfidence]

theorem findSimilarPrompts_single {p : String} {t : MediaType}
    {e : ModerationEvent} (hp : e.prompt = p) (ht : e.type = t)
    (hm : e.moderated = true) (htok : tokenize p ≠ []) :
    findSimilarPrompts p t [e] 0.2 = ⟨[⟨e, 1⟩], []⟩ := by
  have hsim : calculateSimilarity p e.prompt = 1 := by
    rw [hp]
    exact calculateSimilarity_self htok
  rw [findSimilarPrompts]
  norm_num [List.filter_cons, ht, hsim, hm, List.filterMap_cons,
    List.filterMap_nil, List.insertionSort, List.orderedInsert]

theorem assessModerationRisk_single {p : String} {t : MediaType} (c : ℚ)
    {e : ModerationEvent} (hp : e.prompt = p) (ht : e.type = t)
    (hm : e.moderated = true) (htok : tokenize p ≠ [])
    (hrw : findRiskyWords p t [e] = []) :
    (assessModerationRisk p t c [e]).riskScore = 1 ∧
    (assessModerationRisk p t c [e]).confidence = 0.1 := by
  have hf := findSimilarPrompts_single hp ht hm htok
  constructor
  · rw [assessModerationRisk_riskScore, hrw, hf]
    norm_num [baseRiskScore, similarityWeight]
  · rw [assessModerationRisk_confidence, hrw, hf]
    norm_num [baseConfidence, similarityWeight, min_def]

/-- Counterexample to C4 as stated: with exactly one history event, identical
to the candidate `"aaa aaa bbb"` and moderated, the returned confidence is
`0.5`, not `0.1` — the repeated token `"aaa"` trips the risky-word boost,
which raises confidence to `max 0.1 0.5`. -/
theorem assessModerationRisk_single_match_confidence_ne :
    (assessModerationRisk "aaa aaa bbb" .image 1
      [mkEvent "aaa aaa bbb" true]).confidence = 0.5 ∧
    (assessModerationRisk "aaa aaa bbb" .image 1
      [mkEvent "aaa aaa bbb" true]).confidence ≠ 0.1 := by
  with_unfolding_all decide

/-- C4 (amended): the base score of `assessModerationRisk` (the value before
the risky-word boost) is the similarity-weighted moderated share with
confidence `min (countSimilar/10) 1` when a similar prompt exists, and both
are `0` otherwise; with no history the returned riskScore, confidence and
riskyWords are `0`, `0`, `[]`; and with exactly one similar prompt,
identical to the (tokenizable) candidate and moderated, nothing else
matching and **no risky words extracted**, the returned riskScore is `1.0`
and confidence `0.1` (without the no-risky-words proviso the boost can
raise confidence to 0.5, see the counterexample). -/
theorem assessModerationRisk_base_spec (prompt : String) (type : MediaType)
    (cost : ℚ) (history : List ModerationEvent) (e : ModerationEvent) :
    (0 < (findSimilarPrompts prompt type history 0.2).moderated.length +
        (findSimilarPrompts prompt type history 0.2).successful.length →
      baseRiskScore (findSimilarPrompts prompt type history 0.2).moderated
          (findSimilarPrompts prompt type history 0.2).successful =
        similarityWeight (findSimilarPrompts prompt type history 0.2).moderated /
          (similarityWeight (findSimilarPrompts prompt type history 0.2).moderated +
            similarityWeight (findSimilarPrompts prompt type history 0.2).successful) ∧
      baseConfidence (findSimilarPrompts prompt type history 0.2).moderated
          (findSimilarPrompts prompt type history 0.2).successful =
        min ((((findSimilarPrompts prompt type history 0.2).moderated.length +
          (findSimilarPrompts prompt type history 0.2).successful.length : ℕ) : ℚ) / 10) 1) ∧
    ((findSimilarPrompts prompt type history 0.2).moderated.length +
        (findSimilarPrompts prompt type history 0.2).successful.length = 0 →
      baseRiskScore (findSimilarPrompts prompt type history 0.2).moderated
          (findSimilarPrompts prompt type history 0.2).successful = 0 ∧
      baseConfidence (findSimilarPrompts prompt type history 0.2).moderated
          (findSimilarPrompts prompt type history 0.2).successful = 0) ∧
    ((assessModerationRisk prompt type cost []).riskScore = 0 ∧
      (assessModerationRisk prompt type cost []).confidence = 0 ∧
      (assessModerationRisk prompt type cost []).riskyWords = []) ∧
    (e.prompt = prompt → e.type = type → e.moderated = true →
      tokenize prompt ≠ [] → findRiskyWords prompt type [e] = [] →
      (assessModerationRisk prompt type cost [e]).riskScore = 1 ∧
      (assessModerationRisk prompt type cost [e]).confidence = 0.1) :=
  ⟨fun h => base_of_similar_pos prompt type history h,
    fun h => base_of_similar_zero h,
    assessModerationRisk_nil prompt type cost,
    fun hp ht hm htok hrw => assessModerationRisk_single cost hp ht hm htok hrw⟩

/-- Witness for C4 (amended) at a concrete input: a single moderated history
event identical to the candidate `"aaa bbb ccc"` (which has no repeated
token, hence no risky words) yields riskScore `1` and confidence `0.1`. -/
theorem assessModerationRisk_base_spec_witness :
    (0 < (findSimilarPrompts "aaa bbb ccc" .image
        [mkEvent "aaa bbb ccc" true] 0.2).moderated.length +
      (findSimilarPrompts "aaa bbb ccc" .image
        [mkEvent "aaa bbb ccc" true] 0.2).successful.length) ∧
    (assessModerationRisk "aaa bbb ccc" .image 1
      [mkEvent "aaa bbb ccc" true]).riskScore = 1 ∧
    (assessModerationRisk "aaa bbb ccc" .image 1
      [mkEvent "aaa bbb ccc" true]).confidence = 0.1 := by
  refine ⟨by with_unfolding_all decide, ?_⟩
  exact (assessModerationRisk_base_spec "aaa bbb ccc" .image 1
    [mkEvent "aaa bbb ccc" true] (mkEvent "aaa bbb ccc" true)).2.2.2
    rfl rfl rfl (by with_unfolding_all decide) (by with_unfolding_all decide)

/-- C3: the historical-only path computes
`estimatedWaste = riskScore * (cost + moderationFee)` while the blended path
(resolved classifier call) computes `estimatedWaste = riskScore * cost`
without the surcharge; on the historical path, for a fixed non-negative
cost, the waste is monotone in the risk score and vanishes at risk `0`. -/
theorem estimatedWaste_spec (prompt p2 : String) (type t2 : MediaType)
    (cost : ℚ) (history h2 : List ModerationEvent)
    (g : TextModerationResult) :
    (assessModerationRisk prompt type cost history).estimatedWaste =
      (assessModerationRisk prompt type cost history).riskScore *
        (cost + PRICING.moderationFee) ∧
    (assessModerationRiskWithGrok prompt type cost history (.ok g)).estimatedWaste =
      (assessModerationRiskWithGrok prompt type cost history (.ok g)).riskScore *
        cost ∧
    (0 ≤ cost →
      (assessModerationRisk prompt type cost history).riskScore ≤
        (assessModerationRisk p2 t2 cost h2).riskScore →
      (assessModerationRisk prompt type cost history).estimatedWaste ≤
        (assessModerationRisk p2 t2 cost h2).estimatedWaste) ∧
    ((assessModerationRisk prompt type cost history).riskScore = 0 →
      (assessModerationRisk prompt type cost history).estimatedWaste = 0) := by
  refine ⟨rfl, rfl, fun hc hr => ?_, fun h0 => ?_⟩
  · rw [assessModerationRisk_estimatedWaste, assessModerationRisk_estimatedWaste]
    have hfee : 0 ≤ cost + PRICING.moderationFee := by
      have : (0:ℚ) ≤ PRICING.moderationFee := by norm_num [PRICING.moderationFee]
      linarith
    exact mul_le_mul_of_nonneg_right hr hfee
  · rw [assessModerationRisk_estimatedWaste, h0, zero_mul]

/-- Witness for C3 at concrete inputs: empty history gives waste `0`, and it
is below the waste of a history with one moderated identical event. -/
theorem estimatedWaste_spec_witness :
    (0:ℚ) ≤ 1 ∧
    (assessModerationRisk "aaa" .image 1 []).estimatedWaste = 0 ∧
    (assessModerationRisk "aaa" .image 1 []).estimatedWaste ≤
      (assessModerationRisk "aaa bbb ccc" .image 1
        [mkEvent "aaa bbb ccc" true]).estimatedWaste := by
  refine ⟨by norm_num, ?_, ?_⟩
  · exact (estimatedWaste_spec "aaa" "x" .image .image 1 [] []
      neutralVerdict).2.2.2 (by with_unfolding_all decide)
  · exact (estimatedWaste_spec "aaa" "aaa bbb ccc" .image .image 1 []
      [mkEvent "aaa bbb ccc" true] neutralVerdict).2.2.1
      (by norm_num) (by with_unfolding_all decide)

/-- C1: when the classifier verdict has positive confidence, an unsafe
verdict yields `riskScore = 0.7*conf + 0.3*baseRisk` and
`confidence = max conf baseConf`, and a safe verdict yields
`riskScore = 0.5*baseRisk` and `confidence = max (0.8*conf) baseConf`;
in particular an unsafe verdict of confidence `0.9` against base risk `0.2`
yields `0.69`. -/
theorem assessModerationRiskWithGrok_blend (prompt : String)
    (type : MediaType) (cost : ℚ) (history : List ModerationEvent)
    (g : TextModerationResult) (hconf : 0 < g.confidence) :
    (g.safe = false →
      (assessModerationRiskWithGrok prompt type cost history (.ok g)).riskScore =
        0.7 * g.confidence +
          0.3 * (assessModerationRisk prompt type cost history).riskScore ∧
      (assessModerationRiskWithGrok prompt type cost history (.ok g)).confidence =
        max g.confidence (assessModerationRisk prompt type cost history).confidence) ∧
    (g.safe = true →
      (assessModerationRiskWithGrok prompt type cost history (.ok g)).riskScore =
        0.5 * (assessModerationRisk prompt type cost history).riskScore ∧
      (assessModerationRiskWithGrok prompt type cost history (.ok g)).confidence =
        max (0.8 * g.confidence)
          (assessModerationRisk prompt type cost history).confidence) ∧
    (g.safe = false → g.confidence = 0.9 →
      (assessModerationRisk prompt type cost history).riskScore = 0.2 →
      (assessModerationRiskWithGrok prompt type cost history (.ok g)).riskScore =
        0.69) := by
  rw [assessModerationRiskWithGrok_ok]
  refine ⟨fun hsafe => ?_, fun hsafe => ?_, fun hsafe hc9 hb2 => ?_⟩
  · simp only [hsafe, Bool.not_false, if_pos hconf, if_true]
    constructor <;> ring_nf
  · simp only [hsafe, Bool.not_true, if_pos hconf, Bool.false_eq_true,
      if_false]
    constructor <;> ring_nf
  · simp only [hsafe, Bool.not_false, if_pos hconf, if_true, hc9, hb2]
    norm_num

/-- Witness for C1: against `mixedHistory` the candidate `"aaa bbb ccc"` has
base risk `0.2`, and the unsafe verdict of confidence `0.9` blends to
`0.69`. -/
theorem assessModerationRiskWithGrok_blend_witness :
    0 < flaggedVerdict.confidence ∧
    (assessModerationRiskWithGrok "aaa bbb ccc" .image 1 mixedHistory
      (.ok flaggedVerdict)).riskScore = 0.69 := by
  refine ⟨by norm_num [flaggedVerdict], ?_⟩
  exact (assessModerationRiskWithGrok_blend "aaa bbb ccc" .image 1
    mixedHistory flaggedVerdict (by norm_num [flaggedVerdict])).2.2
    rfl rfl (by with_unfolding_all decide)

/-- Counterexample to C2 as stated: a resolved classifier call with
confidence `0` still attaches `grokAnalysis`, and the blended
`estimatedWaste` (`riskScore * cost`) differs from the base one
(`riskScore * (cost + 0.05)`), so the result does not equal the base
assessment in every field. -/
theorem blendedNeutral_ne_base :
    neutralVerdict.confidence = 0 ∧
    (assessModerationRiskWithGrok "aaa bbb ccc" .image 1
      [mkEvent "aaa bbb ccc" true] (.ok neutralVerdict)).grokAnalysis ≠ none ∧
    (assessModerationRiskWithGrok "aaa bbb ccc" .image 1
        [mkEvent "aaa bbb ccc" true] (.ok neutralVerdict)).estimatedWaste ≠
      (assessModerationRisk "aaa bbb ccc" .image 1
        [mkEvent "aaa bbb ccc" true]).estimatedWaste := by
  with_unfolding_all decide

/-- C2 (amended): when the resolved classifier verdict has confidence `0`,
the blended riskScore and confidence equal the base assessment's, but the
returned record is not the base assessment verbatim: suggestions are the
base ones extended by the verdict's (capped at 5), riskyWords are the
first-occurrence deduplication of the base terms plus lower-cased issues,
`estimatedWaste` is recomputed as `baseRisk * cost` (dropping the
surcharge), and `grokAnalysis` is attached (it is present whenever the
external call resolves, whatever its confidence). -/
theorem assessModerationRiskWithGrok_neutral (prompt : String)
    (type : MediaType) (cost : ℚ) (history : List ModerationEvent)
    (g : TextModerationResult) (h : g.confidence = 0) :
    (assessModerationRiskWithGrok prompt type cost history (.ok g)).riskScore =
      (assessModerationRisk prompt type cost history).riskScore ∧
    (assessModerationRiskWithGrok prompt type cost history (.ok g)).confidence =
      (assessModerationRisk prompt type cost history).confidence ∧
    (assessModerationRiskWithGrok prompt type cost history (.ok g)).suggestions =
      ((assessModerationRisk prompt type cost history).suggestions ++
        g.suggestions).take 5 ∧
    (assessModerationRiskWithGrok prompt type cost history (.ok g)).riskyWords =
      dedupKeepFirst ((assessModerationRisk prompt type cost history).riskyWords ++
        g.issues.map toLowerCase) ∧
    (assessModerationRiskWithGrok prompt type cost history (.ok g)).estimatedWaste =
      (assessModerationRisk prompt type cost history).riskScore * cost ∧
    (assessModerationRiskWithGrok prompt type cost history (.ok g)).grokAnalysis =
      some g := by
  rw [assessModerationRiskWithGrok_ok]
  simp only [h]
  norm_num

/-- Witness for C2 (amended) at the neutral verdict and a concrete
history. -/
theorem assessModerationRiskWithGrok_neutral_witness :
    neutralVerdict.confidence = 0 ∧
    (assessModerationRiskWithGrok "aaa bbb ccc" .image 1
        [mkEvent "aaa bbb ccc" true] (.ok neutralVerdict)).riskScore =
      (assessModerationRisk "aaa bbb ccc" .image 1
        [mkEvent "aaa bbb ccc" true]).riskScore ∧
    (assessModerationRiskWithGrok "aaa bbb ccc" .image 1
        [mkEvent "aaa bbb ccc" true] (.ok neutralVerdict)).grokAnalysis =
      some neutralVerdict := by
  refine ⟨rfl, ?_, ?_⟩
  · exact (assessModerationRiskWithGrok_neutral "aaa bbb ccc" .image 1
      [mkEvent "aaa bbb ccc" true] neutralVerdict rfl).1
  · exact (assessModerationRiskWithGrok_neutral "aaa bbb ccc" .image 1
      [mkEvent "aaa bbb ccc" true] neutralVerdict rfl).2.2.2.2.2

/-! ### Helper lemmas: ranges -/

theorem baseRiskScore_bounds {M S : List SimilarPrompt}
    (hm : 0 ≤ similarityWeight M) (hs : 0 ≤ similarityWeight S) :
    0 ≤ baseRiskScore M S ∧ baseRiskScore M S ≤ 1 := by
  simp only [baseRiskScore]
  split_ifs with h
  · have hw : 0 < similarityWeight M + similarityWeight S := h.2
    constructor
    · exact div_nonneg hm (le_of_lt hw)
    · rw [div_le_one hw]
      linarith
  · norm_num

theorem baseConfidence_bounds (M S : List SimilarPrompt) :
    0 ≤ baseConfidence M S ∧ baseConfidence M S ≤ 1 := by
  simp only [baseConfidence]
  split_ifs with h
  · exact ⟨le_min (by positivity) zero_le_one, min_le_right _ _⟩
  · norm_num

theorem moderatedWeight_nonneg (prompt : String) (type : MediaType)
    (history : List ModerationEvent) :
    0 ≤ similarityWeight (findSimilarPrompts prompt type history 0.2).moderated :=
  similarityWeight_nonneg fun s hs =>
    le_trans (by norm_num) (similarity_ge_of_mem_moderated hs)

theorem successfulWeight_nonneg (prompt : String) (type : MediaType)
    (history : List ModerationEvent) :
    0 ≤ similarityWeight (findSimilarPrompts prompt type history 0.2).successful :=
  similarityWeight_nonneg fun s hs =>
    le_trans (by norm_num) (similarity_ge_of_mem_successful hs)

theorem assessModerationRisk_riskScore_bounds (prompt : String)
    (type : MediaType) (cost : ℚ) (history : List ModerationEvent) :
    0 ≤ (assessModerationRisk prompt type cost history).riskScore ∧
    (assessModerationRisk prompt type cost history).riskScore ≤ 1 := by
  rw [assessModerationRisk_riskScore]
  have hb := baseRiskScore_bounds (moderatedWeight_nonneg prompt type history)
    (successfulWeight_nonneg prompt type history)
  split_ifs with h
  · constructor
    · exact le_min (add_nonneg hb.1 (by positivity)) zero_le_one
    · exact min_le_right _ _
  · exact hb

theorem assessModerationRisk_confidence_bounds (prompt : String)
    (type : MediaType) (cost : ℚ) (history : List ModerationEvent) :
    0 ≤ (assessModerationRisk prompt type cost history).confidence ∧
    (assessModerationRisk prompt type cost history).confidence ≤ 1 := by
  rw [assessModerationRisk_confidence]
  have hb := baseConfidence_bounds
    (findSimilarPrompts prompt type history 0.2).moderated
    (findSimilarPrompts prompt type history 0.2).successful
  split_ifs with h
  · constructor
    · exact le_trans (by norm_num) (le_max_right _ _)
    · exact max_le hb.2 (by norm_num)
  · exact hb

theorem assessModerationRiskWithGrok_ok_estimatedWaste (prompt : String)
    (type : MediaType) (cost : ℚ) (history : List ModerationEvent)
    (g : TextModerationResult) :
    (assessModerationRiskWithGrok prompt type cost history (.ok g)).estimatedWaste =
      (assessModerationRiskWithGrok prompt type cost history (.ok g)).riskScore *
        cost := rfl

theorem assessModerationRiskWithGrok_riskScore_bounds (prompt : String)
    (type : MediaType) (cost : ℚ) (history : List ModerationEvent)
    {g : TextModerationResult} (_hg0 : 0 ≤ g.confidence)
    (hg1 : g.confidence ≤ 1) :
    0 ≤ (assessModerationRiskWithGrok prompt type cost history (.ok g)).riskScore ∧
    (assessModerationRiskWithGrok prompt type cost history (.ok g)).riskScore ≤ 1 := by
  have hb := assessModerationRisk_riskScore_bounds prompt type cost history
  rw [assessModerationRiskWithGrok_ok]
  dsimp only
  split_ifs with h1 h2
  · constructor <;> nlinarith [hb.1, hb.2]
  · constructor <;> nlinarith [hb.1, hb.2]
  · exact hb

theorem assessModerationRiskWithGrok_confidence_bounds (prompt : String)
    (type : MediaType) (cost : ℚ) (history : List ModerationEvent)
    {g : TextModerationResult} (hg0 : 0 ≤ g.confidence)
    (hg1 : g.confidence ≤ 1) :
    0 ≤ (assessModerationRiskWithGrok prompt type cost history (.ok g)).confidence ∧
    (assessModerationRiskWithGrok prompt type cost history (.ok g)).confidence ≤ 1 := by
  have hb := assessModerationRisk_confidence_bounds prompt type cost history
  rw [assessModerationRiskWithGrok_ok]
  dsimp only
  split_ifs with h1 h2
  · exact ⟨le_trans hg0 (le_max_left _ _), max_le hg1 hb.2⟩
  · exact ⟨le_trans (by nlinarith) (le_max_left _ _), max_le (by nlinarith) hb.2⟩
  · exact hb

/-- C7: every `RiskAssessment` returned by `assessModerationRisk` has
`riskScore` and `confidence` in `[0,1]`, and non-negative `estimatedWaste`
for non-negative cost; the same holds for `assessModerationRiskWithGrok`
on a resolved classifier call whose confidence lies in `[0,1]`. -/
theorem riskAssessment_ranges (prompt : String) (type : MediaType)
    (cost : ℚ) (history : List ModerationEvent) (g : TextModerationResult) :
    (0 ≤ (assessModerationRisk prompt type cost history).riskScore ∧
      (assessModerationRisk prompt type cost history).riskScore ≤ 1) ∧
    (0 ≤ (assessModerationRisk prompt type cost history).confidence ∧
      (assessModerationRisk prompt type cost history).confidence ≤ 1) ∧
    (0 ≤ cost → 0 ≤ (assessModerationRisk prompt type cost history).estimatedWaste) ∧
    (0 ≤ g.confidence → g.confidence ≤ 1 →
      (0 ≤ (assessModerationRiskWithGrok prompt type cost history (.ok g)).riskScore ∧
        (assessModerationRiskWithGrok prompt type cost history (.ok g)).riskScore ≤ 1) ∧
      (0 ≤ (assessModerationRiskWithGrok prompt type cost history (.ok g)).confidence ∧
        (assessModerationRiskWithGrok prompt type cost history (.ok g)).confidence ≤ 1) ∧
      (0 ≤ cost →
        0 ≤ (assessModerationRiskWithGrok prompt type cost history (.ok g)).estimatedWaste)) := by
  refine ⟨assessModerationRisk_riskScore_bounds prompt type cost history,
    assessModerationRisk_confidence_bounds prompt type cost history,
    fun hc => ?_, fun hg0 hg1 => ?_⟩
  · rw [assessModerationRisk_estimatedWaste]
    have hfee : (0:ℚ) ≤ PRICING.moderationFee := by norm_num [PRICING.moderationFee]
    exact mul_nonneg
      (assessModerationRisk_riskScore_bounds prompt type cost history).1
      (by linarith)
  · refine ⟨assessModerationRiskWithGrok_riskScore_bounds prompt type cost
        history hg0 hg1,
      assessModerationRiskWithGrok_confidence_bounds prompt type cost
        history hg0 hg1, fun hc => ?_⟩
    rw [assessModerationRiskWithGrok_ok_estimatedWaste]
    exact mul_nonneg (assessModerationRiskWithGrok_riskScore_bounds prompt
      type cost history hg0 hg1).1 hc

/-- Witness for C7 at a concrete input and verdict. -/
theorem riskAssessment_ranges_witness :
    (0:ℚ) ≤ 1 ∧ 0 ≤ flaggedVerdict.confidence ∧ flaggedVerdict.confidence ≤ 1 ∧
    0 ≤ (assessModerationRisk "aaa bbb ccc" .image 1 mixedHistory).estimatedWaste ∧
    0 ≤ (assessModerationRiskWithGrok "aaa bbb ccc" .image 1 mixedHistory
      (.ok flaggedVerdict)).estimatedWaste := by
  refine ⟨by norm_num, by norm_num [flaggedVerdict], by norm_num [flaggedVerdict],
    ?_, ?_⟩
  · exact (riskAssessment_ranges "aaa bbb ccc" .image 1 mixedHistory
      flaggedVerdict).2.2.1 (by norm_num)
  · exact ((riskAssessment_ranges "aaa bbb ccc" .image 1 mixedHistory
      flaggedVerdict).2.2.2 (by norm_num [flaggedVerdict])
      (by norm_num [flaggedVerdict])).2.2 (by norm_num)

/-! ### Helper lemmas: findRiskyWords -/

theorem findRiskyWords_length_le (prompt : String) (type : MediaType)
    (history : List ModerationEvent) :
    (findRiskyWords prompt type history).length ≤ 5 := by
  simp only [findRiskyWords]
  split_ifs with h
  · simp
  · simp only [List.length_map, List.length_take]
    exact min_le_left _ _

theorem findRiskyWords_mem_conditions {prompt : String} {type : MediaType}
    {history : List ModerationEvent} {t : String}
    (ht : t ∈ findRiskyWords prompt type history) :
    2 ≤ wordCount ((history.filter (fun e => e.type = type)).filter
          (fun e => e.moderated)) t +
        wordCount ((history.filter (fun e => e.type = type)).filter
          (fun e => !e.moderated)) t ∧
    wordCount ((history.filter (fun e => e.type = type)).filter
        (fun e => !e.moderated)) t <
      wordCount ((history.filter (fun e => e.type = type)).filter
        (fun e => e.moderated)) t ∧
    (0.6 : ℚ) <
      (wordCount ((history.filter (fun e => e.type = type)).filter
          (fun e => e.moderated)) t : ℚ) /
        ((wordCount ((history.filter (fun e => e.type = type)).filter
            (fun e => e.moderated)) t +
          wordCount ((history.filter (fun e => e.type = type)).filter
            (fun e => !e.moderated)) t : ℕ) : ℚ) := by
  simp only [findRiskyWords] at ht
  split_ifs at ht with h
  · simp at ht
  · obtain ⟨w, hw, hwt⟩ := List.mem_map.1 ht
    have hw' : w ∈ riskyCandidates prompt
        ((history.filter (fun e => e.type = type)).filter (fun e => e.moderated))
        ((history.filter (fun e => e.type = type)).filter (fun e => !e.moderated)) := by
      have := List.mem_of_mem_take hw
      rwa [List.mem_insertionSort] at this
    obtain ⟨word, _, heq⟩ := List.mem_filterMap.1 hw'
    by_cases h1 : 2 ≤ wordCount ((history.filter (fun e => e.type = type)).filter
          (fun e => e.moderated)) word +
        wordCount ((history.filter (fun e => e.type = type)).filter
          (fun e => !e.moderated)) word ∧
        wordCount ((history.filter (fun e => e.type = type)).filter
          (fun e => !e.moderated)) word <
        wordCount ((history.filter (fun e => e.type = type)).filter
          (fun e => e.moderated)) word
    · rw [if_pos h1] at heq
      by_cases h2 : (0.6 : ℚ) <
          (wordCount ((history.filter (fun e => e.type = type)).filter
              (fun e => e.moderated)) word : ℚ) /
            ((wordCount ((history.filter (fun e => e.type = type)).filter
                (fun e => e.moderated)) word +
              wordCount ((history.filter (fun e => e.type = type)).filter
                (fun e => !e.moderated)) word : ℕ) : ℚ)
      · rw [if_pos h2] at heq
        obtain rfl := Option.some_inj.1 heq
        rw [← hwt]
        exact ⟨h1.1, h1.2, h2⟩
      · rw [if_neg h2] at heq
        exact absurd heq (by simp)
    · rw [if_neg h1] at heq
      exact absurd heq (by simp)

theorem findRiskyWords_no_moderated {prompt : String} {type : MediaType}
    {history : List ModerationEvent}
    (h : ∀ e ∈ history.filter (fun e => e.type = type), e.moderated = false) :
    findRiskyWords prompt type history = [] := by
  have hnil : (history.filter (fun e => e.type = type)).filter
      (fun e => e.moderated) = [] := by
    rw [List.filter_eq_nil_iff]
    intro e he
    simp [h e he]
  simp only [findRiskyWords, hnil]
  simp

/-- C6: the risky-term extractor returns at most 5 terms; every returned
term has total evidence `≥ 2` over the kind-filtered history, strictly more
moderated than successful occurrences, and a moderated share above `0.6`;
and when the kind-filtered history contains no moderated events the result
is empty. -/
theorem findRiskyWords_spec (prompt : String) (type : MediaType)
    (history : List ModerationEvent) (t : String) :
    (findRiskyWords prompt type history).length ≤ 5 ∧
    (t ∈ findRiskyWords prompt type history →
      2 ≤ wordCount ((history.filter (fun e => e.type = type)).filter
            (fun e => e.moderated)) t +
          wordCount ((history.filter (fun e => e.type = type)).filter
            (fun e => !e.moderated)) t ∧
      wordCount ((history.filter (fun e => e.type = type)).filter
          (fun e => !e.moderated)) t <
        wordCount ((history.filter (fun e => e.type = type)).filter
          (fun e => e.moderated)) t ∧
      (0.6 : ℚ) <
        (wordCount ((history.filter (fun e => e.type = type)).filter
            (fun e => e.moderated)) t : ℚ) /
          ((wordCount ((history.filter (fun e => e.type = type)).filter
              (fun e => e.moderated)) t +
            wordCount ((history.filter (fun e => e.type = type)).filter
              (fun e => !e.moderated)) t : ℕ) : ℚ)) ∧
    ((∀ e ∈ history.filter (fun e => e.type = type), e.moderated = false) →
      findRiskyWords prompt type history = []) :=
  ⟨findRiskyWords_length_le prompt type history,
    fun ht => findRiskyWords_mem_conditions ht,
    fun h => findRiskyWords_no_moderated h⟩

/-- Witness for C6: over a history with two moderated `"xxx yyy"` image
events the candidate `"xxx"` yields the risky term `"xxx"` (evidence 2,
share 1 > 0.6), and over an all-successful history the extractor returns
nothing. -/
theorem findRiskyWords_spec_witness :
    ("xxx" ∈ findRiskyWords "xxx" .image
      [mkEvent "xxx yyy" true, mkEvent "xxx yyy" true]) ∧
    2 ≤ wordCount (([mkEvent "xxx yyy" true, mkEvent "xxx yyy" true].filter
          (fun e => e.type = MediaType.image)).filter
          (fun e => e.moderated)) "xxx" +
        wordCount (([mkEvent "xxx yyy" true, mkEvent "xxx yyy" true].filter
          (fun e => e.type = MediaType.image)).filter
          (fun e => !e.moderated)) "xxx" ∧
    findRiskyWords "zzz" .image [mkEvent "zzz" false] = [] := by
  refine ⟨by with_unfolding_all decide, ?_, ?_⟩
  · exact ((findRiskyWords_spec "xxx" .image
      [mkEvent "xxx yyy" true, mkEvent "xxx yyy" true] "xxx").2.1
      (by with_unfolding_all decide)).1
  · exact (findRiskyWords_spec "zzz" .image [mkEvent "zzz" false] "w").2.2
      (by with_unfolding_all decide)

/-- C8: classifier failures never propagate — a thrown/rejected call yields
the neutral verdict with the failure reason recorded in `reasoning`; a
parsed object with a mistyped field (`safe` not boolean, `confidence` not
numeric, `issues`/`suggestions` not lists) yields the neutral verdict with
the validation failure recorded; a fully valid parse is returned as is; and
if the classifier invocation inside the blender nevertheless rejects, the
blender returns the base historical assessment unchanged. -/
theorem checkTextModeration_spec :
    (∀ (prompt msg : String),
      checkTextModeration prompt (.failure msg) =
        { safe := true, confidence := 0, issues := [], suggestions := [],
          reasoning := "Error analyzing prompt: " ++ msg }) ∧
    (∀ (prompt : String) (r : ParsedResponse),
      (r.safe = none ∨ r.confidence = none ∨ r.issues = none ∨
        r.suggestions = none) →
      checkTextModeration prompt (.response r) =
        { safe := true, confidence := 0, issues := [], suggestions := [],
          reasoning :=
            "Error analyzing prompt: Invalid response format from Grok" }) ∧
    (∀ (prompt : String) (safe : Bool) (confidence : ℚ)
      (issues suggestions : List String) (reasoning : String),
      checkTextModeration prompt (.response
          ⟨some safe, some confidence, some issues, some suggestions,
            reasoning⟩) =
        { safe := safe, confidence := confidence, issues := issues,
          suggestions := suggestions, reasoning := reasoning }) ∧
    (∀ (prompt : String) (type : MediaType) (cost : ℚ)
      (history : List ModerationEvent) (msg : String),
      assessModerationRiskWithGrok prompt type cost history (.error msg) =
        assessModerationRisk prompt type cost history) := by
  refine ⟨fun prompt msg => rfl, fun prompt r h => ?_, fun _ _ _ _ _ _ => rfl,
    fun _ _ _ _ _ => rfl⟩
  obtain ⟨s, c, i, su, re⟩ := r
  rcases s with _ | sb <;> rcases c with _ | cc <;> rcases i with _ | ii <;>
    rcases su with _ | ss <;>
    simp_all [checkTextModeration, moderationFallback]

/-- Witness for C8 at concrete outcomes: a network failure, a parsed object
whose `confidence` is not numeric, and a rejected blender call over a
concrete history. -/
theorem checkTextModeration_spec_witness :
    checkTextModeration "p" (.failure "network error") =
      { safe := true, confidence := 0, issues := [], suggestions := [],
        reasoning := "Error analyzing prompt: network error" } ∧
    checkTextModeration "p" (.response
        ⟨some true, none, some [], some [], "ok"⟩) =
      { safe := true, confidence := 0, issues := [], suggestions := [],
        reasoning :=
          "Error analyzing prompt: Invalid response format from Grok" } ∧
    assessModerationRiskWithGrok "aaa bbb ccc" .image 1 mixedHistory
        (.error "boom") =
      assessModerationRisk "aaa bbb ccc" .image 1 mixedHistory := by
  refine ⟨checkTextModeration_spec.1 "p" "network error", ?_, ?_⟩
  · exact checkTextModeration_spec.2.1 "p"
      ⟨some true, none, some [], some [], "ok"⟩ (Or.inr (Or.inl rfl))
  · exact checkTextModeration_spec.2.2.2 "aaa bbb ccc" .image 1
      mixedHistory "boom"

/-- Counterexample to C9 as stated: the historical entry point returns the
risky term `"aaa"` twice for the candidate `"aaa aaa bbb"` (the extractor
iterates over prompt occurrences, not distinct terms), so its `riskyWords`
is not duplicate-free. -/
theorem assessModerationRisk_riskyWords_duplicate :
    (assessModerationRisk "aaa aaa bbb" .image 1
      [mkEvent "aaa aaa bbb" true]).riskyWords = ["aaa", "aaa"] ∧
    ¬ (assessModerationRisk "aaa aaa bbb" .image 1
      [mkEvent "aaa aaa bbb" true]).riskyWords.Nodup := by
  with_unfolding_all decide

/-- C9 (amended): the blended entry point deduplicates — whenever the
classifier call resolves, the returned `riskyWords` list contains no
duplicate entries; the historical-only entry point does not, and can repeat
a term that occurs multiple times in the candidate prompt. -/
theorem assessModerationRiskWithGrok_riskyWords_nodup (prompt : String)
    (type : MediaType) (cost : ℚ) (history : List ModerationEvent)
    (g : TextModerationResult) :
    ((assessModerationRiskWithGrok prompt type cost history
      (.ok g)).riskyWords).Nodup := by
  rw [assessModerationRiskWithGrok_ok]
  exact nodup_dedupKeepFirst _

theorem generateSuggestions_bounds (riskyWords : List String)
    (similarSuccessful : List SimilarPrompt) :
    2 ≤ (generateSuggestions riskyWords similarSuccessful).length ∧
    (generateSuggestions riskyWords similarSuccessful).length ≤ 4 ∧
    genericSuggestion1 ∈ generateSuggestions riskyWords similarSuccessful ∧
    genericSuggestion2 ∈ generateSuggestions riskyWords similarSuccessful := by
  rcases riskyWords with _ | ⟨w, ws⟩ <;>
    rcases similarSuccessful with _ | ⟨s, st⟩ <;>
    · simp only [generateSuggestions, List.length_cons, List.length_nil]
      rw [List.take_of_length_le (by simp)]
      simp

/-- C10: the suggestions list returned by `assessModerationRisk` always has
between 2 and 4 entries and always contains the two fixed generic
suggestions (the pre-cap list never exceeds 4 entries, so the cap never
displaces them); in particular it is never empty. -/
theorem assessModerationRisk_suggestions_spec (prompt : String)
    (type : MediaType) (cost : ℚ) (history : List ModerationEvent) :
    2 ≤ (assessModerationRisk prompt type cost history).suggestions.length ∧
    (assessModerationRisk prompt type cost history).suggestions.length ≤ 4 ∧
    genericSuggestion1 ∈ (assessModerationRisk prompt type cost history).suggestions ∧
    genericSuggestion2 ∈ (assessModerationRisk prompt type cost history).suggestions := by
  rw [assessModerationRisk_suggestions]
  exact generateSuggestions_bounds _ _
